import Mathlib

/-!
Verification development for the NVC exercises API (Bun/Elysia + SQLite).

The embedding below models `src/database.ts` (class `NVCDatabase`) and the
route handlers of `src/index.ts`.  Modelling choices:

* SQLite rows become Lean structures; the credential table and the exercise
  table become lists of rows held in a `DBState`.
* `DATETIME` values (`created_at`, `last_used`) are modelled as `Nat`
  timestamps; `CURRENT_TIMESTAMP` becomes an explicit `now : Nat` argument.
* SHA-256 hex hashing (`hashApiKey`) is modelled by an explicit function
  argument `hashFn : String → String`; nothing in the claims depends on the
  concrete digest beyond it being a deterministic function.
* `Math.floor(Math.random() * chars.length)` becomes an explicit stream
  `rolls : Nat → Nat` of pre-drawn indices (each `< 62` when well formed).
* JSON-encoded columns (`steps_en`, `steps_zh`, `related_exercises`) store a
  serialization of a value; `steps` columns are modelled by their parsed
  `List String` (the JSON text of a list is never the empty string, so the
  JavaScript truthiness test on the column is `Option.isSome` on the model),
  `related_exercises` is kept as its raw text since no claim inspects it.
* JavaScript truthiness on an optional string (`undefined`/`""` falsy) is
  `jsTruthy` below.
-/

namespace NvcApi

/-- Row of the `api_keys` table (interface `ApiKey` in `database.ts`). -/
structure ApiKey where
  id : Nat
  key_hash : String
  name : String
  is_active : Bool
  created_at : Nat
  last_used : Option Nat
deriving Repr, DecidableEq

/-- Row of the `exercises` table (interface `DatabaseExercise`). -/
structure DatabaseExercise where
  id : Nat
  type : String
  name_en : String
  name_zh : String
  description_en : String
  description_zh : String
  difficulty : Option String
  target_audience : Option String
  related_exercises : Option String
  scenario_en : Option String
  scenario_zh : Option String
  example_en : Option String
  example_zh : Option String
  nvc_alternative_en : Option String
  nvc_alternative_zh : Option String
  request_template_en : Option String
  request_template_zh : Option String
  gratitude_expression_en : Option String
  gratitude_expression_zh : Option String
  steps_en : Option (List String)
  steps_zh : Option (List String)
deriving Repr, DecidableEq

/-- The two tables of the SQLite database. -/
structure DBState where
  exercises : List DatabaseExercise
  apiKeys : List ApiKey
deriving Repr, DecidableEq

/-- JavaScript truthiness of a `string | undefined` value:
`undefined` and `""` are falsy, every other string is truthy. -/
def jsTruthy : Option String → Bool
  | none => false
  | some s => !(s == "")

/-- The alphabet used by `generateApiKey`
(`"ABCDEFGHIJKLMNOPQRSTUVWXYZabcdefghijklmnopqrstuvwxyz0123456789"`). -/
def keyChars : List Char :=
  "ABCDEFGHIJKLMNOPQRSTUVWXYZabcdefghijklmnopqrstuvwxyz0123456789".toList

/-- `generateApiKey`: the fixed recognizable four-character head `nvc_`
followed by 32 characters drawn from `keyChars` at the pre-drawn indices
`rolls 0, …, rolls 31` (the source draws
`Math.floor(Math.random() * chars.length)`, always `< 62`;
`List.getD` is the total rendering of `charAt`). -/
def generateApiKey (rolls : Nat → Nat) : String :=
  String.mk ("nvc_".toList ++ (List.range 32).map (fun i => keyChars.getD (rolls i) 'A'))

/-- `AUTOINCREMENT` id for a fresh `api_keys` row: one more than the largest
id in the table (`0` gives id `1` on an empty table, as SQLite does). -/
def nextApiKeyId (ks : List ApiKey) : Nat :=
  (ks.map (fun k => k.id)).foldr Nat.max 0 + 1

/-- `createApiKey(name)`: generate a key, hash it, and
`INSERT INTO api_keys (key_hash, name)` with the schema defaults
`is_active = 1`, `created_at = CURRENT_TIMESTAMP`, `last_used = NULL`;
returns the plaintext key and the fresh id alongside the new table. -/
def createApiKey (hashFn : String → String) (ks : List ApiKey) (rolls : Nat → Nat)
    (name : String) (now : Nat) : (String × Nat) × List ApiKey :=
  let key := generateApiKey rolls
  let keyHash := hashFn key
  let id := nextApiKeyId ks
  ((key, id),
    ks ++ [{ id := id, key_hash := keyHash, name := name, is_active := true,
             created_at := now, last_used := none }])

/-- `validateApiKey(key)`: hash the presented key and run the single
conditioned query
`SELECT * FROM api_keys WHERE key_hash = ? AND is_active = 1`;
on a hit, `UPDATE api_keys SET last_used = CURRENT_TIMESTAMP WHERE id = ?`
and return the row read by the SELECT. -/
def validateApiKey (hashFn : String → String) (ks : List ApiKey) (key : String)
    (now : Nat) : Option ApiKey × List ApiKey :=
  let keyHash := hashFn key
  match ks.find? (fun k => k.key_hash == keyHash && k.is_active) with
  | none => (none, ks)
  | some k =>
      (some k,
        ks.map (fun r => if r.id == k.id then { r with last_used := some now } else r))

/-- `deactivateApiKey(id)`: `UPDATE api_keys SET is_active = 0 WHERE id = ?`
and report `changes > 0`.  SQLite's `changes` counts every row matched by the
`WHERE` clause, whether or not the stored value actually differed. -/
def deactivateApiKey (ks : List ApiKey) (id : Nat) : Bool × List ApiKey :=
  ((ks.filter (fun k => k.id == id)).length > 0,
    ks.map (fun k => if k.id == id then { k with is_active := false } else k))

/-- `getAllApiKeys()`: `SELECT * FROM api_keys ORDER BY created_at DESC`
(modelled as a stable sort by descending timestamp). -/
def getAllApiKeys (ks : List ApiKey) : List ApiKey :=
  List.insertionSort (fun a b => b.created_at ≤ a.created_at) ks

/-- Query filters taken by `getAllExercises`
(`{ type?, difficulty?, targetAudience? }`). -/
structure ExerciseFilters where
  type : Option String
  difficulty : Option String
  targetAudience : Option String
deriving Repr, DecidableEq

/-- One pushed `col = ?` conjunct for a `TEXT NOT NULL` column: the filter
field contributes no constraint when absent or `""` (the JavaScript
truthiness test `if (filters.type)`), and exact equality otherwise. -/
def sqlEqStr (fv : Option String) (s : String) : Bool :=
  match fv with
  | none => true
  | some v => v == "" || s == v

/-- One pushed `col = ?` conjunct for a nullable `TEXT` column: a SQL `NULL`
never equals a bound value, hence the comparison with `some v`. -/
def sqlEqOpt (fv : Option String) (o : Option String) : Bool :=
  match fv with
  | none => true
  | some v => v == "" || o == some v

/-- `getAllExercises(filters)`: builds `SELECT * FROM exercises` plus one
`col = ?` conjunct per truthy filter field, joined with `AND`, and returns
the matching rows in storage order. -/
def getAllExercises (es : List DatabaseExercise) (f : ExerciseFilters) :
    List DatabaseExercise :=
  es.filter (fun e =>
    sqlEqStr f.type e.type
    && sqlEqOpt f.difficulty e.difficulty
    && sqlEqOpt f.targetAudience e.target_audience)

/-- The numeric value SQLite assigns to a digit-only text under `INTEGER`
affinity (`none` for a text that is not a digit run; such a text never
equals an `INTEGER` column). -/
def digitsToNat (s : String) : Option Nat :=
  if s.length > 0 && s.toList.all Char.isDigit then
    some (s.toList.foldl (fun n c => n * 10 + (c.toNat - 48)) 0)
  else none

/-- `getExerciseById(id)`: `SELECT * FROM exercises WHERE id = ?` with a text
parameter against the `INTEGER` primary key.  Under SQLite's type affinity a
digit string is converted to its numeric value before comparison (so `"007"`
matches id `7`).  The route handler only ever passes digit-only strings
here. -/
def getExerciseById (es : List DatabaseExercise) (id : String) :
    Option DatabaseExercise :=
  match digitsToNat id with
  | some n => es.find? (fun e => e.id == n)
  | none => none

/-- A projected bilingual field: a two-entry language map when no language was
requested, a single collapsed string otherwise. -/
inductive ProjField where
  | single : String → ProjField
  | pair : (en : String) → (zh : String) → ProjField
deriving Repr, DecidableEq

/-- A projected entry of the `steps` sequence.  In map mode the `zh` slot is
`stepsZh[i]`, which is `undefined` when the Chinese list is shorter — hence
`Option String`. -/
inductive ProjStep where
  | single : String → ProjStep
  | pair : (en : String) → (zh : Option String) → ProjStep
deriving Repr, DecidableEq

/-- Output shape of `transformToNVCExercise` (interface `NVCExercise`).
The source field `example` is spelled `exampleField` here because `example`
is a Lean keyword. -/
structure NVCExercise where
  id : String
  type : String
  name : ProjField
  description : ProjField
  difficulty : Option String
  targetAudience : Option String
  relatedExercises : Option String
  scenario : Option ProjField
  exampleField : Option ProjField
  nvcAlternative : Option ProjField
  requestTemplate : Option ProjField
  gratitudeExpression : Option ProjField
  steps : Option (List ProjStep)
deriving Repr, DecidableEq

/-- The per-field language dispatch `lang === "zh" ? zh : en`. -/
def pickLang (l : String) (en zh : String) : String :=
  if l == "zh" then zh else en

/-- `lang ? (lang === "zh" ? zh : en) : { en, zh }` for a required bilingual
column pair (`name`, `description`). -/
def projPair (lang : Option String) (en zh : String) : ProjField :=
  if jsTruthy lang then ProjField.single (pickLang (lang.getD "") en zh)
  else ProjField.pair en zh

/-- `if (col_en && col_zh) { … }` guard plus the language dispatch, for the
optional bilingual column pairs (`scenario`, `example`, …). -/
def projOptPair (lang : Option String) (en zh : Option String) : Option ProjField :=
  if jsTruthy en && jsTruthy zh then some (projPair lang (en.getD "") (zh.getD ""))
  else none

/-- Map-mode steps:
`stepsEn.map((step, i) => ({ en: step, zh: stepsZh[i] }))` — the i-th entry
pairs `es[i]` with `zs[i]?` (rendered by structural recursion: the head of
`es` is paired with `zs[0]?` and the tail walks `zs.drop 1`). -/
def stepsMapMode : List String → List String → List ProjStep
  | [], _ => []
  | e :: es, zs => ProjStep.pair e zs[0]? :: stepsMapMode es (zs.drop 1)

/-- The `steps` block of the transform: the guard `if (steps_en && steps_zh)`
is presence of both columns (a stored JSON array text is never `""`), then
either collapse to one language or build the positional map. -/
def projSteps (lang : Option String) (en zh : Option (List String)) :
    Option (List ProjStep) :=
  match en, zh with
  | some es, some zs =>
      some (if jsTruthy lang then
              (if lang.getD "" == "zh" then zs else es).map ProjStep.single
            else stepsMapMode es zs)
  | _, _ => none

/-- `transformToNVCExercise(dbExercise, lang?)`. -/
def transformToNVCExercise (e : DatabaseExercise) (lang : Option String) :
    NVCExercise :=
  { id := toString e.id
    type := e.type
    name := projPair lang e.name_en e.name_zh
    description := projPair lang e.description_en e.description_zh
    difficulty := e.difficulty
    targetAudience := e.target_audience
    relatedExercises := if jsTruthy e.related_exercises then e.related_exercises else none
    scenario := projOptPair lang e.scenario_en e.scenario_zh
    exampleField := projOptPair lang e.example_en e.example_zh
    nvcAlternative := projOptPair lang e.nvc_alternative_en e.nvc_alternative_zh
    requestTemplate := projOptPair lang e.request_template_en e.request_template_zh
    gratitudeExpression :=
      projOptPair lang e.gratitude_expression_en e.gratitude_expression_zh
    steps := projSteps lang e.steps_en e.steps_zh }

/-- Caller-facing outcome of a route handler, tagged by the HTTP status the
handler sets: `ok` (200 with a payload), `unauthorized` (401),
`validationError` (400), `notFound` (404). -/
inductive ApiOutcome (α : Type) where
  | ok : α → ApiOutcome α
  | unauthorized : String → ApiOutcome α
  | validationError : String → ApiOutcome α
  | notFound : String → ApiOutcome α
deriving Repr, DecidableEq

/-- Result of `authMiddleware`. -/
inductive AuthResult where
  | missing
  | invalid
  | ok : ApiKey → AuthResult
deriving Repr, DecidableEq

/-- `authHeader.startsWith("Bearer ") ? authHeader.slice(7) : authHeader`. -/
def stripBearer (h : String) : String :=
  if h.startsWith "Bearer " then h.drop 7 else h

/-- `authMiddleware`: reject a falsy `Authorization` header, strip the
`Bearer ` token head, and delegate to `validateApiKey` (whose `last_used`
touch is the returned table). -/
def authMiddleware (hashFn : String → String) (ks : List ApiKey)
    (auth : Option String) (now : Nat) : AuthResult × List ApiKey :=
  if !(jsTruthy auth) then (AuthResult.missing, ks)
  else
    match validateApiKey hashFn ks (stripBearer (auth.getD "")) now with
    | (none, ks2) => (AuthResult.invalid, ks2)
    | (some k, ks2) => (AuthResult.ok k, ks2)

/-- The closed `type` enumeration checked by the `/exercises` handler. -/
def validTypes : List String :=
  ["observation-evaluation", "feelings-thoughts", "needs-demands",
   "listening-barriers", "requests", "gratitude", "conflict-resolution"]

/-- The closed `difficulty` enumeration checked by the `/exercises` handler. -/
def validDifficulties : List String := ["beginner", "intermediate", "advanced"]

/-- The closed `targetAudience` enumeration checked by the handler. -/
def validAudiences : List String := ["individual", "group"]

/-- Query parameters of `GET /exercises`. -/
structure ExercisesQuery where
  type : Option String
  lang : Option String
  difficulty : Option String
  targetAudience : Option String
deriving Repr, DecidableEq

/-- `GET /exercises`: authenticate, validate `lang`, `type`, `difficulty`,
`targetAudience` against their closed enumerations (each check guarded by
JavaScript truthiness of the parameter), then filter and project. -/
def getExercisesHandler (hashFn : String → String) (st : DBState)
    (auth : Option String) (q : ExercisesQuery) (now : Nat) :
    ApiOutcome (List NVCExercise) × DBState :=
  match authMiddleware hashFn st.apiKeys auth now with
  | (AuthResult.missing, ks2) =>
      (ApiOutcome.unauthorized "Missing Authorization header",
        { st with apiKeys := ks2 })
  | (AuthResult.invalid, ks2) =>
      (ApiOutcome.unauthorized "Invalid API key", { st with apiKeys := ks2 })
  | (AuthResult.ok _, ks2) =>
      let st2 : DBState := { st with apiKeys := ks2 }
      if jsTruthy q.lang && !(["en", "zh"].contains (q.lang.getD "")) then
        (ApiOutcome.validationError "Invalid language. Use en or zh.", st2)
      else if jsTruthy q.type && !(validTypes.contains (q.type.getD "")) then
        (ApiOutcome.validationError "Invalid type.", st2)
      else if jsTruthy q.difficulty
          && !(validDifficulties.contains (q.difficulty.getD "")) then
        (ApiOutcome.validationError "Invalid difficulty.", st2)
      else if jsTruthy q.targetAudience
          && !(validAudiences.contains (q.targetAudience.getD "")) then
        (ApiOutcome.validationError "Invalid target audience.", st2)
      else
        (ApiOutcome.ok
          ((getAllExercises st2.exercises
              { type := q.type, difficulty := q.difficulty,
                targetAudience := q.targetAudience }).map
            (fun e => transformToNVCExercise e q.lang)), st2)

/-- The route regex `^\d+$`: non-empty and all digits. -/
def isDigits (s : String) : Bool :=
  s.length > 0 && s.toList.all Char.isDigit

/-- `GET /exercises/:id`: authenticate, validate `lang`, validate the id
shape against `^\d+$`, then look the exercise up and project it. -/
def getExerciseByIdHandler (hashFn : String → String) (st : DBState)
    (auth : Option String) (id : String) (lang : Option String) (now : Nat) :
    ApiOutcome NVCExercise × DBState :=
  match authMiddleware hashFn st.apiKeys auth now with
  | (AuthResult.missing, ks2) =>
      (ApiOutcome.unauthorized "Missing Authorization header",
        { st with apiKeys := ks2 })
  | (AuthResult.invalid, ks2) =>
      (ApiOutcome.unauthorized "Invalid API key", { st with apiKeys := ks2 })
  | (AuthResult.ok _, ks2) =>
      let st2 : DBState := { st with apiKeys := ks2 }
      if jsTruthy lang && !(["en", "zh"].contains (lang.getD "")) then
        (ApiOutcome.validationError "Invalid language. Use en or zh.", st2)
      else if !(isDigits id) then
        (ApiOutcome.validationError "Invalid exercise ID format", st2)
      else
        match getExerciseById st2.exercises id with
        | none => (ApiOutcome.notFound "Exercise not found", st2)
        | some e => (ApiOutcome.ok (transformToNVCExercise e lang), st2)

/-- `POST /admin/api-keys`: no authentication; reject a falsy `name`
(`if (!name || typeof name !== "string")`), otherwise create a key and
return the plaintext and id.  The `auth` argument is the request's
`Authorization` header, which this handler never reads. -/
def createApiKeyHandler (hashFn : String → String) (st : DBState)
    (_auth : Option String) (rolls : Nat → Nat) (name : Option String)
    (now : Nat) : ApiOutcome (String × Nat) × DBState :=
  if !(jsTruthy name) then (ApiOutcome.validationError "Name is required", st)
  else
    let r := createApiKey hashFn st.apiKeys rolls (name.getD "") now
    (ApiOutcome.ok r.1, { st with apiKeys := r.2 })

/-- Metadata shape returned by `GET /admin/api-keys`: the handler maps each
row to `{ id, name, is_active, created_at, last_used }` — there is no
`key_hash` slot in the response. -/
structure ApiKeyMeta where
  id : Nat
  name : String
  is_active : Bool
  created_at : Nat
  last_used : Option Nat
deriving Repr, DecidableEq

/-- The field selection applied to each row by the listing handler. -/
def toApiKeyMeta (k : ApiKey) : ApiKeyMeta :=
  { id := k.id, name := k.name, is_active := k.is_active,
    created_at := k.created_at, last_used := k.last_used }

/-- `GET /admin/api-keys`: no authentication; list all keys and strip each
row down to its metadata.  `auth` is the unread `Authorization` header. -/
def listApiKeysHandler (st : DBState) (_auth : Option String) :
    ApiOutcome (List ApiKeyMeta) × DBState :=
  (ApiOutcome.ok ((getAllApiKeys st.apiKeys).map toApiKeyMeta), st)

/-- `parseInt` on a route parameter, for the digit-leading strings the model
cares about: `none` is `NaN` (an `UPDATE … WHERE id = NaN` matches no row). -/
def jsParseIntNat (s : String) : Option Nat :=
  let ds := s.toList.takeWhile Char.isDigit
  if ds.isEmpty then none else (String.mk ds).toNat?

/-- `DELETE /admin/api-keys/:id`: no authentication; deactivate and answer
404 exactly when `deactivateApiKey` reports zero changed rows.  `auth` is
the unread `Authorization` header. -/
def deleteApiKeyHandler (st : DBState) (_auth : Option String) (id : String) :
    ApiOutcome String × DBState :=
  match jsParseIntNat id with
  | none => (ApiOutcome.notFound "API key not found", st)
  | some n =>
      let r := deactivateApiKey st.apiKeys n
      if r.1 then
        (ApiOutcome.ok "API key deactivated successfully",
          { st with apiKeys := r.2 })
      else (ApiOutcome.notFound "API key not found", { st with apiKeys := r.2 })

/-- The table written by `deactivateApiKey`, unfolded. -/
theorem deactivateApiKey_snd (ks : List ApiKey) (id : Nat) :
    (deactivateApiKey ks id).2 =
      ks.map (fun k => if k.id == id then { k with is_active := false } else k) := rfl

/-- A concrete hash model for witnesses: append a marker character. -/
def cHash (s : String) : String := s ++ "#"

/-- C1: once `revoke(id)` has succeeded, any subsequent `validate` presenting
that credential's plaintext fails and leaves the table unchanged, even though
a stored row still carries the matching digest but is inactive; and the
lookup used by `validate` accepts a row only when digest match and active
status hold together in that single lookup. -/
theorem revoked_key_fails_validation
    (hashFn : String → String) (ks ks2 : List ApiKey) (id : Nat) (key : String)
    (now : Nat)
    (hrev : deactivateApiKey ks id = (true, ks2))
    (huniq : ∀ r ∈ ks, r.key_hash = hashFn key → r.id = id) :
    validateApiKey hashFn ks2 key now = (none, ks2)
    ∧ (∀ r ∈ ks, r.key_hash = hashFn key →
        ∃ r2 ∈ ks2, r2.key_hash = hashFn key ∧ r2.is_active = false)
    ∧ (∀ ks0 k, (validateApiKey hashFn ks0 key now).1 = some k →
        k.key_hash = hashFn key ∧ k.is_active = true) := by
  have hks2 : ks2 =
      ks.map (fun k => if k.id == id then { k with is_active := false } else k) := by
    have h := congrArg Prod.snd hrev
    simpa [deactivateApiKey] using h.symm
  refine ⟨?_, ?_, ?_⟩
  · have hnone : ks2.find? (fun k => k.key_hash == hashFn key && k.is_active) = none := by
      apply List.find?_eq_none.mpr
      intro x hx
      rw [hks2] at hx
      rcases List.mem_map.mp hx with ⟨y, hy, rfl⟩
      by_cases hid : y.id == id
      · simp [hid]
      · simp only [hid, if_neg, Bool.and_eq_true, beq_iff_eq]
        rintro ⟨hhash, _⟩
        exact absurd (huniq y hy hhash) (by simpa using hid)
    simp [validateApiKey, hnone]
  · intro r hr hhash
    have hid : r.id = id := huniq r hr hhash
    refine ⟨{ r with is_active := false }, ?_, hhash, rfl⟩
    rw [hks2]
    have : (fun k => if k.id == id then { k with is_active := false } else k) r =
        { r with is_active := false } := by simp [hid]
    exact this ▸ List.mem_map_of_mem _ hr
  · intro ks0 k h
    have hfst : (validateApiKey hashFn ks0 key now).1
        = ks0.find? (fun r => r.key_hash == hashFn key && r.is_active) := by
      unfold validateApiKey
      cases hf : ks0.find? (fun r => r.key_hash == hashFn key && r.is_active) <;>
        simp [hf]
    rw [hfst] at h
    have hp := List.find?_some h
    simp only [Bool.and_eq_true, beq_iff_eq] at hp
    exact ⟨hp.1, hp.2⟩

/-- Closed instantiation of `revoked_key_fails_validation`: revoking the only
credential makes validating its plaintext fail while its digest still sits in
the table. -/
theorem revoked_key_fails_validation_witness :
    validateApiKey cHash [⟨1, "k1#", "Demo", false, 0, none⟩] "k1" 5 =
      (none, [⟨1, "k1#", "Demo", false, 0, none⟩]) :=
  (revoked_key_fails_validation cHash [⟨1, "k1#", "Demo", true, 0, none⟩]
    [⟨1, "k1#", "Demo", false, 0, none⟩] 1 "k1" 5 (by decide) (by decide)).1

/-- C2 counterexample: `revoke` on an already-revoked id does *not* return
`false` — the `UPDATE` still matches the row, so `changes > 0` and the call
returns `true` (the table, `issuedAt` included, is left unchanged). -/
theorem revoke_already_revoked_returns_true :
    (deactivateApiKey [⟨1, "h", "Demo", false, 7, none⟩] 1).1 = true
    ∧ (deactivateApiKey [⟨1, "h", "Demo", false, 7, none⟩] 1).2 =
        [⟨1, "h", "Demo", false, 7, none⟩] := by
  constructor
  · decide
  · decide

/-- C2 amended: `revoke(id)` returns `true` exactly when a record with that
id exists, regardless of its status (so an already-revoked id yields `true`,
not `false`); no call alters any `issuedAt`, and on an already-revoked id the
table is left entirely unchanged. -/
theorem revoke_amended (ks : List ApiKey) (id : Nat) :
    ((deactivateApiKey ks id).1 = ks.any (fun k => k.id == id))
    ∧ ((deactivateApiKey ks id).2.map (fun k => k.created_at)
        = ks.map (fun k => k.created_at))
    ∧ ((∀ k ∈ ks, k.id = id → k.is_active = false) →
        (deactivateApiKey ks id).2 = ks) := by
  refine ⟨?_, ?_, ?_⟩
  · cases hany : ks.any (fun k => k.id == id) with
    | true =>
        rcases List.any_eq_true.mp hany with ⟨x, hx, hpx⟩
        exact decide_eq_true
          (List.length_pos_of_mem (List.mem_filter.mpr ⟨hx, hpx⟩))
    | false =>
        apply decide_eq_false
        intro hlt
        rcases List.exists_mem_of_length_pos hlt with ⟨x, hx⟩
        have hxf := List.mem_filter.mp hx
        have hany2 : ks.any (fun k => k.id == id) = true :=
          List.any_eq_true.mpr ⟨x, hxf.1, hxf.2⟩
        rw [hany] at hany2
        exact Bool.false_ne_true hany2
  · rw [deactivateApiKey_snd, List.map_map]
    apply List.map_congr_left
    intro k _
    by_cases hid : k.id = id <;> simp [hid]
  · intro h
    rw [deactivateApiKey_snd]
    have hfix : ∀ k ∈ ks,
        (if k.id == id then { k with is_active := false } else k) = k := by
      intro k hk
      by_cases hid : k.id == id
      · have hinact : k.is_active = false := h k hk (by simpa using hid)
        cases k
        simp_all
      · simp [hid]
    calc ks.map (fun k => if k.id == id then { k with is_active := false } else k)
        = ks.map (fun k => k) := List.map_congr_left hfix
      _ = ks := List.map_id' ks

/-- Closed instantiation of `revoke_amended` at a one-row table whose row is
already revoked: the call reports `true` and leaves the row untouched. -/
theorem revoke_amended_witness :
    (deactivateApiKey [⟨2, "h2", "Ops", false, 9, some 4⟩] 2).1 = true
    ∧ (deactivateApiKey [⟨2, "h2", "Ops", false, 9, some 4⟩] 2).2 =
        [⟨2, "h2", "Ops", false, 9, some 4⟩] := by
  have h := revoke_amended [⟨2, "h2", "Ops", false, 9, some 4⟩] 2
  exact ⟨by rw [h.1]; decide, h.2.2 (by decide)⟩

/-- A concrete stored exercise, used by witnesses (both step lists have the
same length). -/
def sampleEx : DatabaseExercise :=
  { id := 1, type := "gratitude", name_en := "hello", name_zh := "nihao",
    description_en := "d-en", description_zh := "d-zh",
    difficulty := some "beginner", target_audience := some "individual",
    related_exercises := none,
    scenario_en := some "s-en", scenario_zh := some "s-zh",
    example_en := none, example_zh := none,
    nvc_alternative_en := none, nvc_alternative_zh := none,
    request_template_en := none, request_template_zh := none,
    gratitude_expression_en := some "g-en", gratitude_expression_zh := some "g-zh",
    steps_en := some ["a1", "a2"], steps_zh := some ["b1", "b2"] }

/-- Like `sampleEx`, but its two step lists have mismatched lengths. -/
def sampleExMis : DatabaseExercise :=
  { sampleEx with steps_en := some ["a1"], steps_zh := some ["b1", "b2"] }

/-- C3 counterexample: the projector itself does *not* reject an unsupported
language — handed `"fr"` it silently collapses every bilingual field to
English, producing exactly the record the `"en"` projection produces. -/
theorem projector_defaults_on_invalid_lang :
    transformToNVCExercise sampleEx (some "fr")
        = transformToNVCExercise sampleEx (some "en")
    ∧ (transformToNVCExercise sampleEx (some "fr")).name
        = ProjField.single "hello" := ⟨rfl, rfl⟩

/-- C3 amended: an out-of-enumeration language is rejected with a validation
failure by the *Gate* (the `/exercises` handler checks `lang` before any
projection happens), while the projector itself, applied directly to an
unsupported truthy language, silently defaults to the English variant. -/
theorem invalid_language_rejected_by_gate
    (hashFn : String → String) (st : DBState) (auth : Option String)
    (q : ExercisesQuery) (now : Nat) (k : ApiKey) (ks2 : List ApiKey)
    (hA : authMiddleware hashFn st.apiKeys auth now = (AuthResult.ok k, ks2))
    (hT : jsTruthy q.lang = true)
    (hBad : (["en", "zh"].contains (q.lang.getD "")) = false) :
    (getExercisesHandler hashFn st auth q now).1
        = ApiOutcome.validationError "Invalid language. Use en or zh."
    ∧ (∀ e l, (l == "") = false → (l == "zh") = false →
        transformToNVCExercise e (some l) = transformToNVCExercise e (some "en")) := by
  constructor
  · have hc : (jsTruthy q.lang && !(["en", "zh"].contains (q.lang.getD ""))) = true := by
      rw [hT, hBad]; rfl
    simp only [getExercisesHandler, hA, hc]
    simp
  · intro e l h1 h2
    simp [transformToNVCExercise, projPair, projOptPair, projSteps, pickLang,
      jsTruthy, h1, h2]

/-- Closed instantiation of `invalid_language_rejected_by_gate`: a valid key
plus `lang=fr` yields the validation failure. -/
theorem invalid_language_rejected_by_gate_witness :
    (getExercisesHandler cHash ⟨[sampleEx], [⟨1, "k1#", "Demo", true, 0, none⟩]⟩
        (some "k1") ⟨none, some "fr", none, none⟩ 5).1
      = ApiOutcome.validationError "Invalid language. Use en or zh." :=
  (invalid_language_rejected_by_gate cHash
    ⟨[sampleEx], [⟨1, "k1#", "Demo", true, 0, none⟩]⟩
    (some "k1") ⟨none, some "fr", none, none⟩ 5 ⟨1, "k1#", "Demo", true, 0, none⟩
    [⟨1, "k1#", "Demo", true, 0, some 5⟩] (by decide) (by decide) (by decide)).1

/-- The spec's reading of the conjunctive filter: every provided field value
must equal the record's corresponding field, absent fields constrain
nothing. -/
def specFilterMatches (f : ExerciseFilters) (e : DatabaseExercise) : Prop :=
  (∀ v, f.type = some v → e.type = v)
  ∧ (∀ v, f.difficulty = some v → e.difficulty = some v)
  ∧ (∀ v, f.targetAudience = some v → e.target_audience = some v)

/-- A non-`""` string-column conjunct holds exactly when the spec's
exact-equality reading holds. -/
theorem sqlEqStr_iff (fv : Option String) (s : String) (h : fv ≠ some "") :
    sqlEqStr fv s = true ↔ (∀ v, fv = some v → s = v) := by
  cases fv with
  | none => simp [sqlEqStr]
  | some v =>
      have hv : ¬(v = "") := fun hv2 => h (by rw [hv2])
      simp [sqlEqStr, hv]

/-- A non-`""` nullable-column conjunct holds exactly when the spec's
exact-equality reading holds. -/
theorem sqlEqOpt_iff (fv : Option String) (o : Option String)
    (h : fv ≠ some "") :
    sqlEqOpt fv o = true ↔ (∀ v, fv = some v → o = some v) := by
  cases fv with
  | none => simp [sqlEqOpt]
  | some v =>
      have hv : ¬(v = "") := fun hv2 => h (by rw [hv2])
      simp [sqlEqOpt, hv]

/-- C4: for every filter whose provided values are genuine enumeration values
(so never the empty string, which the Gate's truthiness test treats as
absent), `list(filter)` returns exactly the stored records matching every
provided predicate conjunctively, preserving storage order, and the empty
filter is the identity. -/
theorem filter_conjunction (es : List DatabaseExercise) (f : ExerciseFilters)
    (hT : f.type ≠ some "") (hD : f.difficulty ≠ some "")
    (hA : f.targetAudience ≠ some "") :
    (∀ e, e ∈ getAllExercises es f ↔ e ∈ es ∧ specFilterMatches f e)
    ∧ (getAllExercises es f).Sublist es
    ∧ getAllExercises es { type := none, difficulty := none, targetAudience := none }
        = es := by
  refine ⟨?_, List.filter_sublist es, ?_⟩
  · intro e
    rw [getAllExercises, List.mem_filter]
    constructor
    · rintro ⟨hm, hp⟩
      simp only [Bool.and_eq_true] at hp
      obtain ⟨⟨h1, h2⟩, h3⟩ := hp
      exact ⟨hm, (sqlEqStr_iff f.type e.type hT).mp h1,
        (sqlEqOpt_iff f.difficulty e.difficulty hD).mp h2,
        (sqlEqOpt_iff f.targetAudience e.target_audience hA).mp h3⟩
    · rintro ⟨hm, h1, h2, h3⟩
      refine ⟨hm, ?_⟩
      simp only [Bool.and_eq_true]
      exact ⟨⟨(sqlEqStr_iff f.type e.type hT).mpr h1,
        (sqlEqOpt_iff f.difficulty e.difficulty hD).mpr h2⟩,
        (sqlEqOpt_iff f.targetAudience e.target_audience hA).mpr h3⟩
  · exact List.filter_eq_self.mpr (fun _ _ => rfl)

/-- Closed instantiation of `filter_conjunction`: a one-element store with a
`gratitude` filter, plus the empty-filter identity. -/
theorem filter_conjunction_witness :
    (sampleEx ∈ getAllExercises [sampleEx]
        { type := some "gratitude", difficulty := none, targetAudience := none }
      ↔ sampleEx ∈ [sampleEx]
        ∧ specFilterMatches
            { type := some "gratitude", difficulty := none, targetAudience := none }
            sampleEx)
    ∧ getAllExercises [sampleEx]
        { type := none, difficulty := none, targetAudience := none } = [sampleEx] := by
  have h := filter_conjunction [sampleEx]
    { type := some "gratitude", difficulty := none, targetAudience := none }
    (by decide) (by decide) (by decide)
  exact ⟨h.1 sampleEx, h.2.2⟩

/-- Round-trip relation between the map-mode projection of one optional
bilingual field and its two collapsed projections: presence coincides, the
map always carries both entries, and each collapsed value is the matching
entry of the map. -/
def fieldRoundtrip (m pe pz : Option ProjField) : Prop :=
  (m = none → pe = none ∧ pz = none)
  ∧ (∀ a b, m = some (ProjField.pair a b) →
      pe = some (ProjField.single a) ∧ pz = some (ProjField.single b))
  ∧ (m = none ∨ ∃ a b, m = some (ProjField.pair a b))

/-- The three projection modes of a required bilingual pair. -/
theorem projPair_modes (en zh : String) :
    projPair none en zh = ProjField.pair en zh
    ∧ projPair (some "en") en zh = ProjField.single en
    ∧ projPair (some "zh") en zh = ProjField.single zh := ⟨rfl, rfl, rfl⟩

/-- The round-trip relation holds for every optional bilingual column pair. -/
theorem projOptPair_roundtrip (en zh : Option String) :
    fieldRoundtrip (projOptPair none en zh) (projOptPair (some "en") en zh)
      (projOptPair (some "zh") en zh) := by
  by_cases hg : (jsTruthy en && jsTruthy zh) = true
  · refine ⟨?_, ?_, ?_⟩
    · intro h
      rw [projOptPair, if_pos hg] at h
      exact absurd h (by simp)
    · intro a b h
      rw [projOptPair, if_pos hg] at h
      have h2 : ProjField.pair (en.getD "") (zh.getD "") = ProjField.pair a b := by
        simpa [projPair, jsTruthy] using h
      obtain ⟨ha, hb⟩ := ProjField.pair.inj h2
      subst ha
      subst hb
      constructor
      · rw [projOptPair, if_pos hg]
        simp [projPair, jsTruthy, pickLang]
      · rw [projOptPair, if_pos hg]
        simp [projPair, jsTruthy, pickLang]
    · right
      refine ⟨en.getD "", zh.getD "", ?_⟩
      rw [projOptPair, if_pos hg]
      simp [projPair, jsTruthy]
  · have h0 : ∀ lang, projOptPair lang en zh = none := by
      intro lang
      rw [projOptPair, if_neg hg]
    exact ⟨fun _ => ⟨h0 _, h0 _⟩,
      fun a b h => absurd (h0 none ▸ h) (by simp),
      Or.inl (h0 none)⟩

/-- With equally long step lists, map mode pairs the lists positionally. -/
theorem stepsMapMode_eq_zip (es : List String) : ∀ zs : List String,
    es.length = zs.length →
    stepsMapMode es zs = (es.zip zs).map (fun p => ProjStep.pair p.1 (some p.2)) := by
  induction es with
  | nil =>
      intro zs h
      cases zs with
      | nil => rfl
      | cons z zs => simp at h
  | cons a es ih =>
      intro zs h
      cases zs with
      | nil => simp at h
      | cons z zs =>
          have h2 : es.length = zs.length := by simpa using h
          simp [stepsMapMode, ih zs h2]

/-- The steps block is absent exactly when one of the two columns is. -/
theorem projSteps_none_iff (lang : Option String) (en zh : Option (List String)) :
    projSteps lang en zh = none ↔ en = none ∨ zh = none := by
  cases en <;> cases zh <;> simp [projSteps]

/-- C5 counterexample: on a record whose two step lists have different
lengths (`steps_en` one entry, `steps_zh` two), the zh-collapsed sequence has
two positions while the no-language map has a single entry — the second
collapsed position has no corresponding entry in the map. -/
theorem projection_roundtrip_mismatch :
    (transformToNVCExercise sampleExMis (some "zh")).steps
        = some [ProjStep.single "b1", ProjStep.single "b2"]
    ∧ (transformToNVCExercise sampleExMis none).steps
        = some [ProjStep.pair "a1" (some "b1")] := ⟨rfl, rfl⟩

/-- C5 amended: provided a record's two step lists have equal length (the
data-integrity condition the spec assumes of the loader), projecting with no
language yields every bilingual field as a two-entry map (steps paired
positionally), and each single-language projection yields, field by field and
position by position, exactly the corresponding entry of that map. -/
theorem projection_roundtrip (e : DatabaseExercise)
    (hsteps : ∀ es zs, e.steps_en = some es → e.steps_zh = some zs →
      es.length = zs.length) :
    ((transformToNVCExercise e none).name = ProjField.pair e.name_en e.name_zh
      ∧ (transformToNVCExercise e (some "en")).name = ProjField.single e.name_en
      ∧ (transformToNVCExercise e (some "zh")).name = ProjField.single e.name_zh)
    ∧ ((transformToNVCExercise e none).description
          = ProjField.pair e.description_en e.description_zh
      ∧ (transformToNVCExercise e (some "en")).description
          = ProjField.single e.description_en
      ∧ (transformToNVCExercise e (some "zh")).description
          = ProjField.single e.description_zh)
    ∧ fieldRoundtrip (transformToNVCExercise e none).scenario
        (transformToNVCExercise e (some "en")).scenario
        (transformToNVCExercise e (some "zh")).scenario
    ∧ fieldRoundtrip (transformToNVCExercise e none).exampleField
        (transformToNVCExercise e (some "en")).exampleField
        (transformToNVCExercise e (some "zh")).exampleField
    ∧ fieldRoundtrip (transformToNVCExercise e none).nvcAlternative
        (transformToNVCExercise e (some "en")).nvcAlternative
        (transformToNVCExercise e (some "zh")).nvcAlternative
    ∧ fieldRoundtrip (transformToNVCExercise e none).requestTemplate
        (transformToNVCExercise e (some "en")).requestTemplate
        (transformToNVCExercise e (some "zh")).requestTemplate
    ∧ fieldRoundtrip (transformToNVCExercise e none).gratitudeExpression
        (transformToNVCExercise e (some "en")).gratitudeExpression
        (transformToNVCExercise e (some "zh")).gratitudeExpression
    ∧ ((transformToNVCExercise e none).steps = none →
        (transformToNVCExercise e (some "en")).steps = none
        ∧ (transformToNVCExercise e (some "zh")).steps = none)
    ∧ (∀ es zs, e.steps_en = some es → e.steps_zh = some zs →
        (transformToNVCExercise e none).steps
            = some ((es.zip zs).map (fun p => ProjStep.pair p.1 (some p.2)))
        ∧ (transformToNVCExercise e (some "en")).steps
            = some (es.map ProjStep.single)
        ∧ (transformToNVCExercise e (some "zh")).steps
            = some (zs.map ProjStep.single)) := by
  refine ⟨⟨rfl, rfl, rfl⟩, ⟨rfl, rfl, rfl⟩,
    projOptPair_roundtrip e.scenario_en e.scenario_zh,
    projOptPair_roundtrip e.example_en e.example_zh,
    projOptPair_roundtrip e.nvc_alternative_en e.nvc_alternative_zh,
    projOptPair_roundtrip e.request_template_en e.request_template_zh,
    projOptPair_roundtrip e.gratitude_expression_en e.gratitude_expression_zh,
    ?_, ?_⟩
  · intro hm
    have h0 := (projSteps_none_iff none e.steps_en e.steps_zh).mp hm
    exact ⟨(projSteps_none_iff (some "en") e.steps_en e.steps_zh).mpr h0,
      (projSteps_none_iff (some "zh") e.steps_en e.steps_zh).mpr h0⟩
  · intro es zs hen hzh
    have hlen := hsteps es zs hen hzh
    refine ⟨?_, ?_, ?_⟩
    · show projSteps none e.steps_en e.steps_zh = _
      rw [hen, hzh]
      show some (stepsMapMode es zs) = _
      rw [stepsMapMode_eq_zip es zs hlen]
    · show projSteps (some "en") e.steps_en e.steps_zh = _
      rw [hen, hzh]
      simp [projSteps, jsTruthy]
    · show projSteps (some "zh") e.steps_en e.steps_zh = _
      rw [hen, hzh]
      simp [projSteps, jsTruthy]

/-- Closed instantiation of `projection_roundtrip` at `sampleEx`, checking
the steps correspondence concretely. -/
theorem projection_roundtrip_witness :
    (transformToNVCExercise sampleEx none).steps
        = some [ProjStep.pair "a1" (some "b1"), ProjStep.pair "a2" (some "b2")]
    ∧ (transformToNVCExercise sampleEx (some "zh")).steps
        = some [ProjStep.single "b1", ProjStep.single "b2"] := by
  have h := (projection_roundtrip sampleEx (by
    intro es zs hen hzh
    simp only [sampleEx] at hen hzh
    cases hen
    cases hzh
    rfl)).2.2.2.2.2.2.2.2 ["a1", "a2"] ["b1", "b2"] rfl rfl
  exact ⟨h.1, h.2.2⟩

/-- Every character of the key alphabet is alphanumeric. -/
theorem keyChars_alphanum : ∀ c ∈ keyChars, c.isAlphanum = true := by decide

/-- C6: `issue(label)` generates a plaintext of exactly 36 characters — the
fixed recognizable head `nvc_` followed by 32 alphanumeric characters —
persists exactly one new row holding the digest (with the label, active
status and issuance time, never the plaintext), hands the plaintext back at
issuance, and no later operation can recover it: the stored fields never
contain the plaintext, and `validate` only ever returns stored rows. -/
theorem issue_shape_and_digest_only
    (hashFn : String → String) (ks : List ApiKey) (rolls : Nat → Nat)
    (name : String) (now : Nat) (hr : ∀ i, rolls i < 62) :
    (generateApiKey rolls).length = 36
    ∧ (generateApiKey rolls).toList.take 4 = ['n', 'v', 'c', '_']
    ∧ (∀ c ∈ (generateApiKey rolls).toList.drop 4, c.isAlphanum = true)
    ∧ createApiKey hashFn ks rolls name now
        = ((generateApiKey rolls, nextApiKeyId ks),
            ks ++ [⟨nextApiKeyId ks, hashFn (generateApiKey rolls), name,
                    true, now, none⟩])
    ∧ (hashFn (generateApiKey rolls) ≠ generateApiKey rolls →
        name ≠ generateApiKey rolls →
        (∀ r ∈ ks, r.key_hash ≠ generateApiKey rolls ∧ r.name ≠ generateApiKey rolls) →
        ∀ r ∈ (createApiKey hashFn ks rolls name now).2,
          r.key_hash ≠ generateApiKey rolls ∧ r.name ≠ generateApiKey rolls)
    ∧ (∀ ks0 w now2 k, (validateApiKey hashFn ks0 w now2).1 = some k → k ∈ ks0) := by
  have hdata : (generateApiKey rolls).toList
      = "nvc_".toList ++ (List.range 32).map (fun i => keyChars.getD (rolls i) 'A') := rfl
  refine ⟨?_, ?_, ?_, rfl, ?_, ?_⟩
  · show (generateApiKey rolls).toList.length = 36
    rw [hdata]
    simp
  · rw [hdata]
    rfl
  · intro c hc
    rw [hdata] at hc
    have h4 : ("nvc_".toList ++
        (List.range 32).map (fun i => keyChars.getD (rolls i) 'A')).drop 4
        = (List.range 32).map (fun i => keyChars.getD (rolls i) 'A') := rfl
    rw [h4] at hc
    rcases List.mem_map.mp hc with ⟨i, _, rfl⟩
    have hlt : rolls i < keyChars.length := hr i
    have hmem : keyChars.getD (rolls i) 'A' ∈ keyChars := by
      rw [List.getD_eq_getElem keyChars 'A' hlt]
      exact List.getElem_mem hlt
    exact keyChars_alphanum _ hmem
  · intro hne hname hst r hr2
    rcases List.mem_append.mp hr2 with h | h
    · exact hst r h
    · have : r = ⟨nextApiKeyId ks, hashFn (generateApiKey rolls), name,
          true, now, none⟩ := by simpa using h
      subst this
      exact ⟨hne, hname⟩
  · intro ks0 w now2 k h
    have hfst : (validateApiKey hashFn ks0 w now2).1
        = ks0.find? (fun r => r.key_hash == hashFn w && r.is_active) := by
      unfold validateApiKey
      cases hf : ks0.find? (fun r => r.key_hash == hashFn w && r.is_active) <;>
        simp [hf]
    rw [hfst] at h
    exact List.mem_of_find?_eq_some h

/-- Closed instantiation of `issue_shape_and_digest_only` with the all-zero
roll stream: key length 36 and head `nvc_`. -/
theorem issue_shape_and_digest_only_witness :
    (generateApiKey (fun _ => 0)).length = 36
    ∧ (generateApiKey (fun _ => 0)).toList.take 4 = ['n', 'v', 'c', '_'] :=
  have h := issue_shape_and_digest_only cHash [] (fun _ => 0) "Demo" 0
    (fun _ => Nat.succ_pos 61)
  ⟨h.1, h.2.1⟩

/-- C7: for the single-exercise lookup, a non-digit id is answered with a
validation failure (never a not-found) for any authenticated caller, and the
exercise store is not consulted — the reported outcome is the same whatever
the exercise table holds; a digit-only id that matches no stored exercise is
answered with the not-found failure. -/
theorem getById_syntax_then_notfound
    (hashFn : String → String) (st : DBState) (auth : Option String)
    (id : String) (lang : Option String) (now : Nat) :
    (isDigits id = false →
      (∀ k ks2, authMiddleware hashFn st.apiKeys auth now = (AuthResult.ok k, ks2) →
        ∃ msg, (getExerciseByIdHandler hashFn st auth id lang now).1
          = ApiOutcome.validationError msg)
      ∧ (∀ es2 : List DatabaseExercise,
          (getExerciseByIdHandler hashFn st auth id lang now).1
            = (getExerciseByIdHandler hashFn ⟨es2, st.apiKeys⟩ auth id lang now).1))
    ∧ (isDigits id = true →
        ∀ k ks2, authMiddleware hashFn st.apiKeys auth now = (AuthResult.ok k, ks2) →
        (jsTruthy lang = false ∨ lang = some "en" ∨ lang = some "zh") →
        getExerciseById st.exercises id = none →
        (getExerciseByIdHandler hashFn st auth id lang now).1
          = ApiOutcome.notFound "Exercise not found") := by
  constructor
  · intro hnd
    constructor
    · intro k ks2 hA
      by_cases hl : (jsTruthy lang && !(["en", "zh"].contains (lang.getD ""))) = true
      · refine ⟨"Invalid language. Use en or zh.", ?_⟩
        simp only [getExerciseByIdHandler, hA, hl]
        simp
      · have hl2 := eq_false_of_ne_true hl
        refine ⟨"Invalid exercise ID format", ?_⟩
        simp only [getExerciseByIdHandler, hA, hl2]
        simp [hnd]
    · intro es2
      cases hA : authMiddleware hashFn st.apiKeys auth now with
      | mk res ks2 =>
          cases res with
          | missing => simp [getExerciseByIdHandler, hA]
          | invalid => simp [getExerciseByIdHandler, hA]
          | ok k =>
              simp only [getExerciseByIdHandler, hA]
              split_ifs with h1 h2
              · rfl
              · rfl
              · rw [hnd] at h2
                exact absurd rfl h2
  · intro hd k ks2 hA hlang hnone
    have hl2 : (jsTruthy lang && !(["en", "zh"].contains (lang.getD ""))) = false := by
      rcases hlang with h | h | h
      · rw [h]; rfl
      · rw [h]; rfl
      · rw [h]; rfl
    simp only [getExerciseByIdHandler, hA, hl2]
    simp [hd, hnone]

/-- Closed instantiation of `getById_syntax_then_notfound`: `getById "abc"`
is a validation failure, `getById "999"` on a store holding only id 1 is the
not-found failure (same authenticated caller). -/
theorem getById_syntax_then_notfound_witness :
    (∃ msg, (getExerciseByIdHandler cHash
        ⟨[sampleEx], [⟨1, "k1#", "Demo", true, 0, none⟩]⟩
        (some "k1") "abc" none 5).1 = ApiOutcome.validationError msg)
    ∧ (getExerciseByIdHandler cHash
        ⟨[sampleEx], [⟨1, "k1#", "Demo", true, 0, none⟩]⟩
        (some "k1") "999" none 5).1 = ApiOutcome.notFound "Exercise not found" := by
  constructor
  · exact ((getById_syntax_then_notfound cHash
      ⟨[sampleEx], [⟨1, "k1#", "Demo", true, 0, none⟩]⟩
      (some "k1") "abc" none 5).1 (by decide)).1
      ⟨1, "k1#", "Demo", true, 0, none⟩ [⟨1, "k1#", "Demo", true, 0, some 5⟩]
      (by decide)
  · exact (getById_syntax_then_notfound cHash
      ⟨[sampleEx], [⟨1, "k1#", "Demo", true, 0, none⟩]⟩
      (some "k1") "999" none 5).2 (by decide)
      ⟨1, "k1#", "Demo", true, 0, none⟩ [⟨1, "k1#", "Demo", true, 0, some 5⟩]
      (by decide) (Or.inl rfl) (by decide)

/-- `orderedInsert` by `created_at` is determined by the metadata projection:
rows with equal metadata insert identically, whatever their digests. -/
theorem orderedInsert_meta (a a2 : ApiKey)
    (hm : toApiKeyMeta a = toApiKeyMeta a2) :
    ∀ L L2 : List ApiKey, L.map toApiKeyMeta = L2.map toApiKeyMeta →
    (List.orderedInsert (fun x y => y.created_at ≤ x.created_at) a L).map toApiKeyMeta
      = (List.orderedInsert (fun x y => y.created_at ≤ x.created_at) a2 L2).map
          toApiKeyMeta := by
  intro L
  induction L with
  | nil =>
      intro L2 h
      cases L2 with
      | nil => simp [hm]
      | cons b L2 => simp at h
  | cons b L ih =>
      intro L2 h
      cases L2 with
      | nil => simp at h
      | cons b2 L2 =>
          simp only [List.map_cons, List.cons.injEq] at h
          obtain ⟨hb, hL⟩ := h
          have hca : a.created_at = a2.created_at :=
            congrArg ApiKeyMeta.created_at hm
          have hcb : b.created_at = b2.created_at :=
            congrArg ApiKeyMeta.created_at hb
          by_cases hc : b.created_at ≤ a.created_at
          · have hc2 : b2.created_at ≤ a2.created_at := by
              rw [← hca, ← hcb]; exact hc
            simp [List.orderedInsert, hc, hc2, hm, hb, hL]
          · have hc2 : ¬(b2.created_at ≤ a2.created_at) := by
              rw [← hca, ← hcb]; exact hc
            simp [List.orderedInsert, hc, hc2, hb, ih L2 hL]

/-- The sorted listing is determined by the metadata projection of the
table. -/
theorem getAllApiKeys_meta : ∀ l l2 : List ApiKey,
    l.map toApiKeyMeta = l2.map toApiKeyMeta →
    (getAllApiKeys l).map toApiKeyMeta = (getAllApiKeys l2).map toApiKeyMeta := by
  intro l
  induction l with
  | nil =>
      intro l2 h
      cases l2 with
      | nil => rfl
      | cons a l2 => simp at h
  | cons a l ih =>
      intro l2 h
      cases l2 with
      | nil => simp at h
      | cons a2 l2 =>
          simp only [List.map_cons, List.cons.injEq] at h
          obtain ⟨ha, hl⟩ := h
          show (List.orderedInsert _ a (getAllApiKeys l)).map toApiKeyMeta = _
          exact orderedInsert_meta a a2 ha _ _ (ih l2 hl)

/-- C8: the credential listing returns the stored rows ordered by descending
`created_at`, each stripped to exactly `(id, label, status, issuedAt,
lastUsedAt)`; the digest is excluded from the output — two tables equal up to
their digests produce identical listings — and listing mutates nothing. -/
theorem admin_listing_digest_free (st : DBState) (auth : Option String) :
    (listApiKeysHandler st auth).2 = st
    ∧ (listApiKeysHandler st auth).1
        = ApiOutcome.ok ((getAllApiKeys st.apiKeys).map toApiKeyMeta)
    ∧ (getAllApiKeys st.apiKeys).Perm st.apiKeys
    ∧ List.Sorted (fun a b => b.created_at ≤ a.created_at)
        (getAllApiKeys st.apiKeys)
    ∧ (∀ ks2 : List ApiKey, st.apiKeys.map toApiKeyMeta = ks2.map toApiKeyMeta →
        (listApiKeysHandler ⟨st.exercises, ks2⟩ auth).1
          = (listApiKeysHandler st auth).1) := by
  refine ⟨rfl, rfl, List.perm_insertionSort _ _, ?_, ?_⟩
  · haveI : IsTotal ApiKey (fun a b => b.created_at ≤ a.created_at) :=
      ⟨fun a b => Nat.le_total _ _⟩
    haveI : IsTrans ApiKey (fun a b => b.created_at ≤ a.created_at) :=
      ⟨fun _ _ _ hab hbc => le_trans hbc hab⟩
    exact List.sorted_insertionSort _ _
  · intro ks2 h
    simp only [listApiKeysHandler, ApiOutcome.ok.injEq]
    exact getAllApiKeys_meta ks2 st.apiKeys h.symm

/-- Closed instantiation of `admin_listing_digest_free`: two tables that
differ only in their stored digests produce the same listing. -/
theorem admin_listing_digest_free_witness :
    (listApiKeysHandler
        ⟨[], [⟨1, "digestB1", "A", true, 3, none⟩, ⟨2, "digestB2", "B", false, 9, some 1⟩]⟩
        none).1
      = (listApiKeysHandler
        ⟨[], [⟨1, "digestA1", "A", true, 3, none⟩, ⟨2, "digestA2", "B", false, 9, some 1⟩]⟩
        none).1 :=
  (admin_listing_digest_free
    ⟨[], [⟨1, "digestA1", "A", true, 3, none⟩, ⟨2, "digestA2", "B", false, 9, some 1⟩]⟩
    none).2.2.2.2
    [⟨1, "digestB1", "A", true, 3, none⟩, ⟨2, "digestB2", "B", false, 9, some 1⟩]
    (by decide)

/-- C9: a failed `validate` (no digest match, or matched-but-revoked) leaves
the table exactly as it was; a successful `validate` returns a stored, active,
digest-matching row and changes nothing except setting that credential's
`last_used` to now — every row with a different id survives unchanged, the
matched id's row changes only its `last_used`, and every row of the new table
agrees with a stored row on id, digest, label, status and `created_at`. -/
theorem validate_touches_only_lastUsed
    (hashFn : String → String) (ks : List ApiKey) (key : String) (now : Nat) :
    ((validateApiKey hashFn ks key now).1 = none →
        (validateApiKey hashFn ks key now).2 = ks)
    ∧ (∀ m, (validateApiKey hashFn ks key now).1 = some m →
        m ∈ ks ∧ m.key_hash = hashFn key ∧ m.is_active = true
        ∧ (validateApiKey hashFn ks key now).2.length = ks.length
        ∧ (∀ r ∈ ks, r.id ≠ m.id → r ∈ (validateApiKey hashFn ks key now).2)
        ∧ (∀ r ∈ ks, r.id = m.id →
            ({ r with last_used := some now } : ApiKey)
              ∈ (validateApiKey hashFn ks key now).2)
        ∧ (∀ r2 ∈ (validateApiKey hashFn ks key now).2, ∃ r ∈ ks,
            r2.id = r.id ∧ r2.key_hash = r.key_hash ∧ r2.name = r.name
            ∧ r2.is_active = r.is_active ∧ r2.created_at = r.created_at
            ∧ (r2.last_used = r.last_used
                ∨ (r.id = m.id ∧ r2.last_used = some now)))) := by
  cases hf : ks.find? (fun r => r.key_hash == hashFn key && r.is_active) with
  | none =>
      constructor
      · intro _
        simp [validateApiKey, hf]
      · intro m h
        rw [show (validateApiKey hashFn ks key now).1 = none by
          simp [validateApiKey, hf]] at h
        exact absurd h (by simp)
  | some k0 =>
      have hfst : (validateApiKey hashFn ks key now).1 = some k0 := by
        simp [validateApiKey, hf]
      have hsnd : (validateApiKey hashFn ks key now).2
          = ks.map (fun r =>
              if r.id == k0.id then { r with last_used := some now } else r) := by
        simp [validateApiKey, hf]
      constructor
      · intro h
        rw [hfst] at h
        exact absurd h (by simp)
      · intro m h
        rw [hfst] at h
        have hm : m = k0 := by simpa using h.symm
        subst hm
        have hp := List.find?_some hf
        simp only [Bool.and_eq_true, beq_iff_eq] at hp
        refine ⟨List.mem_of_find?_eq_some hf, hp.1, hp.2, ?_, ?_, ?_, ?_⟩
        · rw [hsnd, List.length_map]
        · intro r hr hne
          rw [hsnd]
          have : (if r.id == m.id then { r with last_used := some now } else r)
              = r := by simp [hne]
          exact this ▸ List.mem_map_of_mem _ hr
        · intro r hr heq
          rw [hsnd]
          have : (if r.id == m.id then { r with last_used := some now } else r)
              = { r with last_used := some now } := by simp [heq]
          exact this ▸ List.mem_map_of_mem _ hr
        · intro r2 hr2
          rw [hsnd] at hr2
          rcases List.mem_map.mp hr2 with ⟨r, hr, rfl⟩
          by_cases hid : r.id == m.id
          · have hidq : r.id = m.id := by simpa using hid
            refine ⟨r, hr, ?_⟩
            simp [hid, hidq]
          · refine ⟨r, hr, ?_⟩
            simp [hid]

/-- Closed instantiation of `validate_touches_only_lastUsed`: the matched row
is stored, digest-matching and active. -/
theorem validate_touches_only_lastUsed_witness :
    (⟨1, "k1#", "Demo", true, 0, none⟩ : ApiKey)
        ∈ [(⟨1, "k1#", "Demo", true, 0, none⟩ : ApiKey)]
    ∧ (⟨1, "k1#", "Demo", true, 0, none⟩ : ApiKey).key_hash = cHash "k1" :=
  have h := (validate_touches_only_lastUsed cHash
    [⟨1, "k1#", "Demo", true, 0, none⟩] "k1" 5).2
    ⟨1, "k1#", "Demo", true, 0, none⟩ (by decide)
  ⟨h.1, h.2.1⟩

/-- C10: the three admin key-management handlers are independent of whatever
`Authorization` credential is or is not presented (they never invoke
`validate`: listing leaves the state untouched and revocation never touches
any `last_used`), while both exercise read endpoints are guarded — a missing
header short-circuits to the unauthorized outcome with the state untouched,
and a presented credential matching no active stored digest is answered
`Invalid API key`. -/
theorem admin_open_exercises_guarded
    (hashFn : String → String) (st : DBState) (a1 a2 : Option String)
    (rolls : Nat → Nat) (name : Option String) (now : Nat) (idStr : String)
    (q : ExercisesQuery) (id2 : String) (lang : Option String) :
    createApiKeyHandler hashFn st a1 rolls name now
        = createApiKeyHandler hashFn st a2 rolls name now
    ∧ listApiKeysHandler st a1 = listApiKeysHandler st a2
    ∧ deleteApiKeyHandler st a1 idStr = deleteApiKeyHandler st a2 idStr
    ∧ (listApiKeysHandler st a1).2 = st
    ∧ ((deleteApiKeyHandler st a1 idStr).2.apiKeys.map (fun k => k.last_used)
        = st.apiKeys.map (fun k => k.last_used))
    ∧ getExercisesHandler hashFn st none q now
        = (ApiOutcome.unauthorized "Missing Authorization header", st)
    ∧ getExerciseByIdHandler hashFn st none id2 lang now
        = (ApiOutcome.unauthorized "Missing Authorization header", st)
    ∧ (∀ a, jsTruthy (some a) = true →
        (∀ r ∈ st.apiKeys,
          ¬(r.key_hash = hashFn (stripBearer a) ∧ r.is_active = true)) →
        (getExercisesHandler hashFn st (some a) q now).1
          = ApiOutcome.unauthorized "Invalid API key") := by
  refine ⟨rfl, rfl, rfl, rfl, ?_, rfl, rfl, ?_⟩
  · cases hp : jsParseIntNat idStr with
    | none => simp [deleteApiKeyHandler, hp]
    | some n =>
        have h2 : (deleteApiKeyHandler st a1 idStr).2.apiKeys
            = (deactivateApiKey st.apiKeys n).2 := by
          by_cases hb : (deactivateApiKey st.apiKeys n).1 = true
          · simp [deleteApiKeyHandler, hp, hb]
          · simp [deleteApiKeyHandler, hp, eq_false_of_ne_true hb]
        rw [h2, deactivateApiKey_snd, List.map_map]
        apply List.map_congr_left
        intro k _
        by_cases hid : k.id = n <;> simp [hid]
  · intro a htr hno
    have hfind : st.apiKeys.find?
        (fun r => r.key_hash == hashFn (stripBearer a) && r.is_active) = none := by
      apply List.find?_eq_none.mpr
      intro x hx
      simp only [Bool.and_eq_true, beq_iff_eq]
      rintro ⟨h1, h2⟩
      exact hno x hx ⟨h1, h2⟩
    simp [getExercisesHandler, authMiddleware, validateApiKey, htr, hfind]

/-- Closed instantiation of `admin_open_exercises_guarded`: a credential that
matches no stored digest is rejected by the exercises endpoint, and the
listing handler gives the same answer under two different headers. -/
theorem admin_open_exercises_guarded_witness :
    (getExercisesHandler cHash ⟨[sampleEx], [⟨1, "k1#", "Demo", true, 0, none⟩]⟩
        (some "bad") ⟨none, none, none, none⟩ 5).1
      = ApiOutcome.unauthorized "Invalid API key" :=
  (admin_open_exercises_guarded cHash
    ⟨[sampleEx], [⟨1, "k1#", "Demo", true, 0, none⟩]⟩
    (some "x") (some "y") (fun _ => 0) (some "n") 5 "1"
    ⟨none, none, none, none⟩ "1" none).2.2.2.2.2.2.2 "bad" (by decide) (by decide)

end NvcApi
